import Mathlib

/-!
Shallow embedding of `dbhelpers.py` from the prowler repository.

The transactional store is modelled as explicit lists of records; a SQLAlchemy
session's staged state is the list itself.  `session.query(...).filter_by(...)
.first()` becomes `List.find?`, `session.add` appends, `session.delete` erases
the first matching record, and an in-place mutation of a queried object becomes
`updateFirst` at the position `find?` selects.  Python exceptions are modelled
with `Except`; timestamps are integer seconds (`datetime.timestamp()`), and
slopes are exact rationals.
-/

namespace DBHelpers

/-- Update the first element satisfying `p` (the element `List.find?` returns),
modelling an in-place mutation of a queried record. -/
def updateFirst (p : α → Bool) (f : α → α) : List α → List α
  | [] => []
  | x :: xs => if p x then f x :: xs else x :: updateFirst p f xs

/-- `get_or_create(session, dtype, **kwargs)`: return the first existing record
matching the constraints, or stage a new one (`mk`, built from the same
constraints) and return it.  `mtch` is the `filter_by(**kwargs)` predicate and
`mk` is `dtype(**kwargs)`. -/
def get_or_create (mtch : α → Bool) (mk : α) (store : List α) : α × List α :=
  match store.find? mtch with
  | some obj => (obj, store)
  | none => (mk, store ++ [mk])

theorem updateFirst_of_find?_eq_none (p : α → Bool) (f : α → α) (l : List α)
    (h : l.find? p = none) : updateFirst p f l = l := by
  induction l with
  | nil => rfl
  | cons x xs ih =>
    rw [List.find?_cons] at h
    cases hx : p x with
    | true => simp [hx] at h
    | false =>
      have h' : xs.find? p = none := by simpa [hx] using h
      simp [updateFirst, hx, ih h']

theorem updateFirst_append_of_find?_eq_none (p : α → Bool) (f : α → α) (l l' : List α)
    (h : l.find? p = none) : updateFirst p f (l ++ l') = l ++ updateFirst p f l' := by
  induction l with
  | nil => rfl
  | cons x xs ih =>
    rw [List.find?_cons] at h
    cases hx : p x with
    | true => simp [hx] at h
    | false =>
      have h' : xs.find? p = none := by simpa [hx] using h
      simp [updateFirst, hx, ih h']

theorem find?_updateFirst (p : α → Bool) (f : α → α) (l : List α)
    (hf : ∀ a, p a = true → p (f a) = true) :
    (updateFirst p f l).find? p = (l.find? p).map f := by
  induction l with
  | nil => rfl
  | cons x xs ih =>
    cases hx : p x with
    | true => simp [updateFirst, hx, List.find?_cons, hf x hx]
    | false => simp [updateFirst, hx, List.find?_cons, ih]

/-! ## `ProductHistoryStats` : the history-analytics model -/

/-- One row of the `AmzProductHistory` table (the columns the analytics read). -/
structure AmzProductHistory where
  id : Nat
  amz_listing_id : Nat
  timestamp : Int
  salesrank : Int
deriving DecidableEq, Repr

/-- The rows of the history table belonging to one listing
(`filter_by(amz_listing_id=self._listing_id)`). -/
def historyOf (store : List AmzProductHistory) (listing_id : Nat) :
    List AmzProductHistory :=
  store.filter (fun o => o.amz_listing_id == listing_id)

/-- `order_by(AmzProductHistory.timestamp.asc())`. -/
def sortByTimestampAsc (l : List AmzProductHistory) : List AmzProductHistory :=
  l.insertionSort (fun a b => a.timestamp ≤ b.timestamp)

/-- The class constant `_sale_slope = -0.3`. -/
def sale_slope : ℚ := -0.3

/-- `(point.salesrank - last_point.salesrank) / (point.timestamp.timestamp() -
last_point.timestamp.timestamp())`, as an exact rational. -/
def rankSlope (last_point point : AmzProductHistory) : ℚ :=
  (point.salesrank - last_point.salesrank) /
    ((point.timestamp : ℚ) - (last_point.timestamp : ℚ))

/-- The loop body of `sales_points`, threading `last_point`.  Python raises
`ZeroDivisionError` when two consecutive timestamps coincide; the exception is
the `Except.error` value. -/
def sales_points_go (last_point : AmzProductHistory) :
    List AmzProductHistory → Except String (List AmzProductHistory)
  | [] => .ok []
  | point :: rest =>
    if point.timestamp = last_point.timestamp then
      .error "ZeroDivisionError"
    else
      match sales_points_go point rest with
      | .error e => .error e
      | .ok sales =>
        .ok (if rankSlope last_point point < sale_slope then point :: sales else sales)

/-- `ProductHistoryStats.sales_points`: iterate the listing's observations in
ascending timestamp order and collect every point whose slope from its
predecessor is below `_sale_slope`. -/
def sales_points (store : List AmzProductHistory) (listing_id : Nat) :
    Except String (List AmzProductHistory) :=
  match sortByTimestampAsc (historyOf store listing_id) with
  | [] => .ok []
  | point :: rest => sales_points_go point rest

/-- Restatement of the claim's description of `salesPoints`, for comparison
with the source translation: walk the (already sorted) observations and keep
each later point of a consecutive pair whose slope is strictly below the
threshold. -/
def salesPointsSpec : List AmzProductHistory → List AmzProductHistory
  | [] => []
  | [_] => []
  | a :: b :: rest =>
    (if rankSlope a b < sale_slope then [b] else []) ++ salesPointsSpec (b :: rest)

theorem mem_salesPointsSpec {x a : AmzProductHistory} {l : List AmzProductHistory}
    (hx : x ∈ salesPointsSpec (a :: l)) : x ∈ l := by
  induction l generalizing a with
  | nil => simp [salesPointsSpec] at hx
  | cons b rest ih =>
    rw [salesPointsSpec, List.mem_append] at hx
    rcases hx with hx | hx
    · rcases Decidable.em (rankSlope a b < sale_slope) with hc | hc
      · rw [if_pos hc, List.mem_singleton] at hx
        exact hx ▸ List.mem_cons_self b rest
      · rw [if_neg hc] at hx
        exact absurd hx (List.not_mem_nil x)
    · exact List.mem_cons_of_mem b (ih hx)

/-- On a strictly increasing run of timestamps, the `sales_points` loop never
divides by zero and computes exactly the claim's filter. -/
theorem sales_points_go_eq_ok (last_point : AmzProductHistory)
    (l : List AmzProductHistory)
    (h : List.Chain (fun a b => a.timestamp < b.timestamp) last_point l) :
    sales_points_go last_point l = .ok (salesPointsSpec (last_point :: l)) := by
  induction l generalizing last_point with
  | nil => rfl
  | cons p rest ih =>
    rw [List.chain_cons] at h
    rw [sales_points_go, if_neg (by exact fun he => absurd he (ne_of_gt h.1)), ih p h.2]
    show Except.ok (if rankSlope last_point p < sale_slope then
        p :: salesPointsSpec (p :: rest) else salesPointsSpec (p :: rest)) = _
    rw [salesPointsSpec]
    rcases Decidable.em (rankSlope last_point p < sale_slope) with hc | hc
    · rw [if_pos hc, if_pos hc, List.singleton_append]
    · rw [if_neg hc, if_neg hc, List.nil_append]

instance : IsTotal AmzProductHistory (fun a b => a.timestamp ≤ b.timestamp) :=
  ⟨fun a b => le_total a.timestamp b.timestamp⟩

instance : IsTrans AmzProductHistory (fun a b => a.timestamp ≤ b.timestamp) :=
  ⟨fun _ _ _ => le_trans⟩

instance : IsTrans AmzProductHistory (fun a b => a.timestamp < b.timestamp) :=
  ⟨fun _ _ _ => lt_trans⟩

theorem sortByTimestampAsc_perm (l : List AmzProductHistory) :
    List.Perm (sortByTimestampAsc l) l :=
  List.perm_insertionSort _ l

/-- Distinct timestamps make the sorted history strictly increasing. -/
theorem sortByTimestampAsc_pairwise_lt (l : List AmzProductHistory)
    (hnd : (l.map AmzProductHistory.timestamp).Nodup) :
    (sortByTimestampAsc l).Pairwise (fun a b => a.timestamp < b.timestamp) := by
  have hle : (sortByTimestampAsc l).Pairwise (fun a b => a.timestamp ≤ b.timestamp) :=
    List.sorted_insertionSort _ l
  have hnd' : ((sortByTimestampAsc l).map AmzProductHistory.timestamp).Nodup :=
    (((sortByTimestampAsc_perm l).map _).nodup_iff).mpr hnd
  have hne : (sortByTimestampAsc l).Pairwise (fun a b => a.timestamp ≠ b.timestamp) :=
    (List.pairwise_map).mp hnd'
  exact (hle.and hne).imp (fun hab => lt_of_le_of_ne hab.1 hab.2)

/-- With pairwise distinct timestamps, `sales_points` returns normally and
computes the claim's filter over the sorted history. -/
theorem sales_points_eq_ok (store : List AmzProductHistory) (listing_id : Nat)
    (hnd : ((historyOf store listing_id).map AmzProductHistory.timestamp).Nodup) :
    sales_points store listing_id =
      .ok (salesPointsSpec (sortByTimestampAsc (historyOf store listing_id))) := by
  have hp := sortByTimestampAsc_pairwise_lt (historyOf store listing_id) hnd
  unfold sales_points
  cases hs : sortByTimestampAsc (historyOf store listing_id) with
  | nil => rfl
  | cons a l =>
    rw [hs] at hp
    exact sales_points_go_eq_ok a l (List.chain_iff_pairwise.mpr hp)

/-- C1: `salesPoints` iterates the observations in ascending timestamp order,
computes the slope of each consecutive pair, and returns in ascending order
exactly the later points of pairs with slope strictly below -0.3; the first
observation is never in the result; the pair (t=0s, rank=1000), (t=1s, rank=1)
flags the second point. -/
theorem C1_sales_points_filters_steep_slopes (store : List AmzProductHistory)
    (listing_id : Nat)
    (hnd : ((historyOf store listing_id).map AmzProductHistory.timestamp).Nodup) :
    sales_points store listing_id =
        .ok (salesPointsSpec (sortByTimestampAsc (historyOf store listing_id))) ∧
    (∀ first rest r, sortByTimestampAsc (historyOf store listing_id) = first :: rest →
        sales_points store listing_id = .ok r → first ∉ r) ∧
    sales_points [⟨1, 7, 0, 1000⟩, ⟨2, 7, 1, 1⟩] 7 = .ok [⟨2, 7, 1, 1⟩] := by
  refine ⟨sales_points_eq_ok store listing_id hnd, ?_, ?_⟩
  · intro first rest r hs hr
    rw [sales_points_eq_ok store listing_id hnd, hs] at hr
    have hr' : salesPointsSpec (first :: rest) = r := by
      simpa using hr
    intro hmem
    have hrest : first ∈ rest := mem_salesPointsSpec (hr' ▸ hmem)
    have hp := sortByTimestampAsc_pairwise_lt (historyOf store listing_id) hnd
    rw [hs, List.pairwise_cons] at hp
    exact absurd (hp.1 first hrest) (lt_irrefl _)
  · norm_num [sales_points, historyOf, sortByTimestampAsc, List.insertionSort,
      List.orderedInsert, sales_points_go, rankSlope, sale_slope]

/-- Witness for C1 at a concrete two-observation history. -/
theorem C1_witness :
    ((historyOf [⟨1, 7, 0, 1000⟩, ⟨2, 7, 1, 1⟩] 7).map
        AmzProductHistory.timestamp).Nodup ∧
    (sales_points [⟨1, 7, 0, 1000⟩, ⟨2, 7, 1, 1⟩] 7 =
        .ok (salesPointsSpec (sortByTimestampAsc
          (historyOf [⟨1, 7, 0, 1000⟩, ⟨2, 7, 1, 1⟩] 7))) ∧
      (∀ first rest r,
          sortByTimestampAsc (historyOf [⟨1, 7, 0, 1000⟩, ⟨2, 7, 1, 1⟩] 7) =
            first :: rest →
          sales_points [⟨1, 7, 0, 1000⟩, ⟨2, 7, 1, 1⟩] 7 = .ok r → first ∉ r) ∧
      sales_points [⟨1, 7, 0, 1000⟩, ⟨2, 7, 1, 1⟩] 7 = .ok [⟨2, 7, 1, 1⟩]) :=
  ⟨by decide, C1_sales_points_filters_steep_slopes _ 7 (by decide)⟩

/-- C9: the division inside `salesPoints` is unguarded: it returns normally
whenever the listing's timestamps are pairwise distinct, but a history with two
identically timestamped observations raises an uncaught `ZeroDivisionError`. -/
theorem C9_sales_points_division_unguarded :
    (∀ store listing_id,
        ((historyOf store listing_id).map AmzProductHistory.timestamp).Nodup →
        (sales_points store listing_id).isOk = true) ∧
    sales_points [⟨1, 3, 50, 1000⟩, ⟨2, 3, 50, 1⟩] 3 = .error "ZeroDivisionError" := by
  constructor
  · intro store listing_id hnd
    rw [sales_points_eq_ok store listing_id hnd]
    rfl
  · rfl

/-- Witness for C9's universally quantified part at a concrete history. -/
theorem C9_witness :
    ((historyOf [⟨1, 5, 10, 400⟩, ⟨2, 5, 20, 300⟩] 5).map
        AmzProductHistory.timestamp).Nodup ∧
    (sales_points [⟨1, 5, 10, 400⟩, ⟨2, 5, 20, 300⟩] 5).isOk = true :=
  ⟨by decide, C9_sales_points_division_unguarded.1 _ 5 (by decide)⟩

/-- `order_by(AmzProductHistory.timestamp.desc())`. -/
def sortByTimestampDesc (l : List AmzProductHistory) : List AmzProductHistory :=
  l.insertionSort (fun a b => b.timestamp ≤ a.timestamp)

/-- The `is_sale` predecessor query: same listing, id strictly below, ordered
by timestamp descending, `first()`. -/
def priorObservation (store : List AmzProductHistory) (obs : AmzProductHistory) :
    Option AmzProductHistory :=
  (sortByTimestampDesc (store.filter (fun p =>
    p.amz_listing_id == obs.amz_listing_id && decide (p.id < obs.id)))).head?

/-- `ProductHistoryStats.is_sale`: the Bool result paired with the optional
diagnostic printed by the `ZeroDivisionError` handler. -/
def is_sale (store : List AmzProductHistory) (obs : AmzProductHistory) :
    Bool × Option String :=
  match priorObservation store obs with
  | some prior =>
    if obs.timestamp = prior.timestamp then
      (false, some "Zero division error")
    else
      (decide (rankSlope prior obs < sale_slope), none)
  | none => (false, none)

instance : IsTotal AmzProductHistory (fun a b => b.timestamp ≤ a.timestamp) :=
  ⟨fun a b => le_total b.timestamp a.timestamp⟩

instance : IsTrans AmzProductHistory (fun a b => b.timestamp ≤ a.timestamp) :=
  ⟨fun _ _ _ hab hbc => le_trans hbc hab⟩

/-- C2: `isSale` selects as predecessor an observation of the same listing with
id strictly below the given one and maximal timestamp among those; with a
predecessor and a nonzero time delta it answers exactly `slope < -0.3`; with no
predecessor it returns false; with a zero time delta it returns false together
with a diagnostic instead of an uncaught division error. -/
theorem C2_is_sale_predecessor_and_recovery (store : List AmzProductHistory)
    (obs : AmzProductHistory) :
    (priorObservation store obs = none → is_sale store obs = (false, none)) ∧
    (∀ prior, priorObservation store obs = some prior →
      prior.amz_listing_id = obs.amz_listing_id ∧ prior.id < obs.id ∧
      (∀ q ∈ store, q.amz_listing_id = obs.amz_listing_id → q.id < obs.id →
        q.timestamp ≤ prior.timestamp) ∧
      (prior.timestamp = obs.timestamp →
        is_sale store obs = (false, some "Zero division error")) ∧
      (prior.timestamp ≠ obs.timestamp →
        (((is_sale store obs).1 = true ↔ rankSlope prior obs < sale_slope) ∧
          (is_sale store obs).2 = none))) := by
  constructor
  · intro h
    rw [is_sale, h]
  · intro prior hp
    have hsorted : List.Pairwise (fun a b => b.timestamp ≤ a.timestamp)
        (sortByTimestampDesc (store.filter (fun p =>
          p.amz_listing_id == obs.amz_listing_id && decide (p.id < obs.id)))) :=
      List.sorted_insertionSort _ _
    have hperm : List.Perm
        (sortByTimestampDesc (store.filter (fun p =>
          p.amz_listing_id == obs.amz_listing_id && decide (p.id < obs.id))))
        (store.filter (fun p =>
          p.amz_listing_id == obs.amz_listing_id && decide (p.id < obs.id))) :=
      List.perm_insertionSort _ _
    rw [priorObservation] at hp
    rcases hs : sortByTimestampDesc (store.filter (fun p =>
        p.amz_listing_id == obs.amz_listing_id && decide (p.id < obs.id))) with _ | ⟨a, t⟩
    · rw [hs] at hp
      exact absurd hp (by simp)
    · rw [hs] at hp hsorted hperm
      have ha : prior = a := by simpa using hp.symm
      subst ha
      have hmem : prior ∈ store.filter (fun p =>
          p.amz_listing_id == obs.amz_listing_id && decide (p.id < obs.id)) :=
        hperm.mem_iff.mp (List.mem_cons_self _ _)
      rw [List.mem_filter] at hmem
      have hcond := hmem.2
      rw [Bool.and_eq_true, beq_iff_eq, decide_eq_true_eq] at hcond
      refine ⟨hcond.1, hcond.2, ?_, ?_, ?_⟩
      · intro q hq hql hqi
        have hqf : q ∈ prior :: t := by
          refine hperm.mem_iff.mpr ?_
          rw [List.mem_filter]
          exact ⟨hq, by rw [Bool.and_eq_true, beq_iff_eq, decide_eq_true_eq]
                        exact ⟨hql, hqi⟩⟩
        rcases List.mem_cons.mp hqf with hqa | hqt
        · exact le_of_eq (congrArg AmzProductHistory.timestamp hqa)
        · exact (List.pairwise_cons.mp hsorted).1 q hqt
      · intro ht
        rw [is_sale, priorObservation, hs]
        simp only [List.head?_cons]
        rw [if_pos ht.symm]
      · intro ht
        rw [is_sale, priorObservation, hs]
        simp only [List.head?_cons]
        rw [if_neg (fun he => ht he.symm)]
        exact ⟨by simp, rfl⟩

/-- Witness for C2 at a concrete store: a same-timestamp predecessor yields the
non-sale result plus the diagnostic. -/
theorem C2_witness :
    priorObservation [⟨1, 4, 100, 500⟩] ⟨2, 4, 100, 200⟩ = some ⟨1, 4, 100, 500⟩ ∧
    is_sale [⟨1, 4, 100, 500⟩] ⟨2, 4, 100, 200⟩ = (false, some "Zero division error") :=
  ⟨by decide,
    ((C2_is_sale_predecessor_and_recovery [⟨1, 4, 100, 500⟩] ⟨2, 4, 100, 200⟩).2
      ⟨1, 4, 100, 500⟩ (by decide)).2.2.2.1 (by decide)⟩

/-- SQL `AVG` over the selected column: `NULL` on an empty selection. -/
def sqlAvg (l : List ℚ) : Option ℚ :=
  if l = [] then none else some (l.sum / l.length)

/-- `ProductHistoryStats.avg_salesrank`: mean sales rank over the whole
history of the listing. -/
def avg_salesrank (store : List AmzProductHistory) (listing_id : Nat) :
    Option ℚ :=
  sqlAvg ((historyOf store listing_id).map (fun o => (o.salesrank : ℚ)))

/-- The number of seconds in `datetime.timedelta(days=90)`. -/
def ninetyDays : Int := 90 * 86400

/-- `ProductHistoryStats.avg_90day_salesrank`: mean sales rank over the
observations strictly later than `today - timedelta(days=90)`; `today` is the
store-side date in epoch seconds. -/
def avg_90day_salesrank (today : Int) (store : List AmzProductHistory)
    (listing_id : Nat) : Option ℚ :=
  sqlAvg ((store.filter (fun o =>
    o.amz_listing_id == listing_id && decide (o.timestamp > today - ninetyDays))).map
      (fun o => (o.salesrank : ℚ)))

/-- C8: `average90DaySalesrank` averages only the observations strictly inside
the 90-day window — removing every observation at or before the cutoff leaves
it unchanged — and a single observation from 91 days ago is excluded from it
while `averageSalesrank` still includes it. -/
theorem C8_ninety_day_window (store : List AmzProductHistory) (listing_id : Nat)
    (today : Int) :
    avg_90day_salesrank today store listing_id =
      avg_salesrank (store.filter (fun o =>
        decide (o.timestamp > today - ninetyDays))) listing_id ∧
    (∀ (i : Nat) (r : Int),
      avg_90day_salesrank today [⟨i, listing_id, today - 91 * 86400, r⟩] listing_id =
        none ∧
      avg_salesrank [⟨i, listing_id, today - 91 * 86400, r⟩] listing_id = some r) := by
  constructor
  · rw [avg_90day_salesrank, avg_salesrank, historyOf, List.filter_filter]
  · intro i r
    constructor
    · rw [avg_90day_salesrank]
      have hfil : List.filter (fun o : AmzProductHistory =>
          o.amz_listing_id == listing_id && decide (o.timestamp > today - ninetyDays))
          [⟨i, listing_id, today - 91 * 86400, r⟩] = [] := by
        rw [List.filter_eq_nil_iff]
        intro a ha
        rw [List.mem_singleton] at ha
        subst ha
        simp only [beq_self_eq_true, Bool.true_and, gt_iff_lt, ninetyDays,
          decide_eq_true_eq]
        omega
      rw [hfil]
      rfl
    · rw [avg_salesrank, historyOf]
      simp [sqlAvg]

/-- C3: calling `get_or_create` twice with identical constraints returns the
same record both times, the second call leaves the store untouched, and at most
one row is staged — exactly one (the constructed record appended) when no match
pre-existed.  The hypothesis records the store semantics that a freshly
constructed `dtype(**kwargs)` satisfies its own `filter_by(**kwargs)`. -/
theorem C3_get_or_create_idempotent {α : Type} (mtch : α → Bool) (mk : α)
    (store : List α) (hmk : mtch mk = true) :
    (get_or_create mtch mk (get_or_create mtch mk store).2).1 =
        (get_or_create mtch mk store).1 ∧
    (get_or_create mtch mk (get_or_create mtch mk store).2).2 =
        (get_or_create mtch mk store).2 ∧
    (get_or_create mtch mk store).2.length ≤ store.length + 1 ∧
    (store.find? mtch = none →
        (get_or_create mtch mk store).2 = store ++ [mk] ∧
        (get_or_create mtch mk store).1 = mk) := by
  cases hf : store.find? mtch with
  | some obj =>
    have h1 : get_or_create mtch mk store = (obj, store) := by
      rw [get_or_create, hf]
    exact ⟨by simp [h1], by simp [h1], by simp [h1], by simp [hf]⟩
  | none =>
    have h1 : get_or_create mtch mk store = (mk, store ++ [mk]) := by
      rw [get_or_create, hf]
    have hf2 : (store ++ [mk]).find? mtch = some mk := by
      simp [List.find?_append, hf, hmk]
    have h2 : get_or_create mtch mk (store ++ [mk]) = (mk, store ++ [mk]) := by
      rw [get_or_create, hf2]
    exact ⟨by simp [h1, h2], by simp [h1, h2], by simp [h1], fun _ => by simp [h1]⟩

/-- Witness for C3 on a concrete empty store of naturals. -/
theorem C3_witness :
    ((fun n : Nat => n == 5) 5 = true) ∧
    ((get_or_create (fun n : Nat => n == 5) 5
        (get_or_create (fun n : Nat => n == 5) 5 []).2).1 =
      (get_or_create (fun n : Nat => n == 5) 5 ([] : List Nat)).1 ∧
    (get_or_create (fun n : Nat => n == 5) 5
        (get_or_create (fun n : Nat => n == 5) 5 []).2).2 =
      (get_or_create (fun n : Nat => n == 5) 5 ([] : List Nat)).2 ∧
    (get_or_create (fun n : Nat => n == 5) 5 ([] : List Nat)).2.length ≤
      ([] : List Nat).length + 1 ∧
    (([] : List Nat).find? (fun n => n == 5) = none →
        (get_or_create (fun n : Nat => n == 5) 5 ([] : List Nat)).2 = [] ++ [5] ∧
        (get_or_create (fun n : Nat => n == 5) 5 ([] : List Nat)).1 = 5)) :=
  ⟨by decide, C3_get_or_create_idempotent (fun n : Nat => n == 5) 5 [] (by decide)⟩

/-! ## `ProductLinker` -/

/-- A `LinkedProducts` row: the ordered pair of listing ids and the lazily
computed confidence score. -/
structure LinkedProducts where
  amz_listing_id : Nat
  vnd_listing_id : Nat
  confidence : Option ℚ
deriving DecidableEq, Repr

/-- The `filter_by(amz_listing_id=..., vnd_listing_id=...)` predicate. -/
def linkPred (amz vnd : Nat) (l : LinkedProducts) : Bool :=
  l.amz_listing_id == amz && l.vnd_listing_id == vnd

/-- `link_products_ids`: get-or-create the link for the pair; if its confidence
is unset, flush (no observable effect on the modelled state) and let
`build_confidence` mutate the link in place.  The scorer is a parameter, pure
in the two listing ids. -/
def link_products_ids (build_confidence : Nat → Nat → ℚ) (amz vnd : Nat)
    (links : List LinkedProducts) : LinkedProducts × List LinkedProducts :=
  let r := get_or_create (linkPred amz vnd) ⟨amz, vnd, none⟩ links
  match r.1.confidence with
  | some _ => r
  | none =>
    ({ r.1 with confidence := some (build_confidence amz vnd) },
      updateFirst (linkPred amz vnd)
        (fun l => { l with confidence := some (build_confidence amz vnd) }) r.2)

theorem linkPred_confidence_update (amz vnd : Nat) (a : LinkedProducts) (c : Option ℚ) :
    linkPred amz vnd { a with confidence := c } = linkPred amz vnd a := by
  simp [linkPred]

/-- C4: once `linkById` has set the link's confidence, a later `linkById` call
on the same pair returns the very same link and store, whatever value a fresh
scorer run would produce — the scorer is never consulted again. -/
theorem C4_link_confidence_computed_once
    (scorer1 scorer2 : Nat → Nat → ℚ) (amz vnd : Nat)
    (links : List LinkedProducts) :
    link_products_ids scorer2 amz vnd (link_products_ids scorer1 amz vnd links).2 =
      link_products_ids scorer1 amz vnd links ∧
    ((link_products_ids scorer1 amz vnd links).1).confidence.isSome = true := by
  have hp : linkPred amz vnd ⟨amz, vnd, none⟩ = true := by simp [linkPred]
  cases hf : links.find? (linkPred amz vnd) with
  | none =>
    have h1 : get_or_create (linkPred amz vnd) ⟨amz, vnd, none⟩ links =
        (⟨amz, vnd, none⟩, links ++ [⟨amz, vnd, none⟩]) := by
      rw [get_or_create, hf]
    have hup : updateFirst (linkPred amz vnd)
        (fun l => { l with confidence := some (scorer1 amz vnd) })
        (links ++ [⟨amz, vnd, none⟩]) =
        links ++ [⟨amz, vnd, some (scorer1 amz vnd)⟩] := by
      rw [updateFirst_append_of_find?_eq_none _ _ _ _ hf]
      simp [updateFirst, hp]
    have hr1 : link_products_ids scorer1 amz vnd links =
        (⟨amz, vnd, some (scorer1 amz vnd)⟩,
          links ++ [⟨amz, vnd, some (scorer1 amz vnd)⟩]) := by
      rw [link_products_ids, h1]
      show ((⟨amz, vnd, some (scorer1 amz vnd)⟩ : LinkedProducts),
        updateFirst (linkPred amz vnd)
          (fun l => { l with confidence := some (scorer1 amz vnd) })
          (links ++ [⟨amz, vnd, none⟩])) = _
      rw [hup]
    have hf2 : (links ++ [(⟨amz, vnd, some (scorer1 amz vnd)⟩ : LinkedProducts)]).find?
        (linkPred amz vnd) = some ⟨amz, vnd, some (scorer1 amz vnd)⟩ := by
      simp [List.find?_append, hf, linkPred]
    have h2 : get_or_create (linkPred amz vnd) ⟨amz, vnd, none⟩
        (links ++ [⟨amz, vnd, some (scorer1 amz vnd)⟩]) =
        (⟨amz, vnd, some (scorer1 amz vnd)⟩,
          links ++ [⟨amz, vnd, some (scorer1 amz vnd)⟩]) := by
      rw [get_or_create, hf2]
    refine ⟨?_, by rw [hr1]; rfl⟩
    rw [hr1, link_products_ids, h2]
  | some obj =>
    have h1 : get_or_create (linkPred amz vnd) ⟨amz, vnd, none⟩ links =
        (obj, links) := by
      rw [get_or_create, hf]
    cases hc : obj.confidence with
    | some c =>
      have hr1 : link_products_ids scorer1 amz vnd links = (obj, links) := by
        rw [link_products_ids, h1]
        show (match obj.confidence with
          | some _ => (obj, links)
          | none => _) = (obj, links)
        rw [hc]
      refine ⟨?_, by rw [hr1, hc]; rfl⟩
      rw [hr1, link_products_ids, h1]
      show (match obj.confidence with
        | some _ => (obj, links)
        | none => _) = (obj, links)
      rw [hc]
    | none =>
      have hr1 : link_products_ids scorer1 amz vnd links =
          ({ obj with confidence := some (scorer1 amz vnd) },
            updateFirst (linkPred amz vnd)
              (fun l => { l with confidence := some (scorer1 amz vnd) }) links) := by
        rw [link_products_ids, h1]
        show (match obj.confidence with
          | some _ => (obj, links)
          | none => _) = _
        rw [hc]
      have hf2 : (updateFirst (linkPred amz vnd)
          (fun l => { l with confidence := some (scorer1 amz vnd) }) links).find?
          (linkPred amz vnd) = some { obj with confidence := some (scorer1 amz vnd) } := by
        rw [find?_updateFirst _ _ _
          (fun a ha => by rw [linkPred_confidence_update]; exact ha), hf]
        rfl
      have h2 : get_or_create (linkPred amz vnd) ⟨amz, vnd, none⟩
          (updateFirst (linkPred amz vnd)
            (fun l => { l with confidence := some (scorer1 amz vnd) }) links) =
          ({ obj with confidence := some (scorer1 amz vnd) },
            updateFirst (linkPred amz vnd)
              (fun l => { l with confidence := some (scorer1 amz vnd) }) links) := by
        rw [get_or_create, hf2]
      refine ⟨?_, by rw [hr1]; rfl⟩
      rw [hr1, link_products_ids, h2]

/-! ## `CategoryResolver` -/

/-- An `AmazonCategory` row: unique key `product_category_id`, an optional
display name and the set of product groups it matches. -/
structure AmazonCategory where
  product_category_id : Option String
  name : Option String
  product_groups : List String
deriving DecidableEq, Repr

/-- Python truthiness of a nullable string column (`None` and `''` are falsy). -/
def isTruthy : Option String → Bool
  | none => false
  | some s => !(s == "")

/-- `category.name or productcategory_id`. -/
def pyOrName (nm : Option String) (p : String) : Option String :=
  if isTruthy nm then nm else some p

/-- The `elif product_group:` tier: lookup-only by product-group containment,
reached when `productcategory_id` is falsy. -/
def groupLookup (product_group : Option String) (st : List AmazonCategory) :
    Option AmazonCategory × List AmazonCategory :=
  match product_group with
  | some gp =>
    if gp == "" then (none, st)
    else (st.find? (fun c => c.product_groups.contains gp), st)
  | none => (none, st)

/-- `get_or_create_category(session, productcategory_id, product_group)`:
tier 1 get-or-create by category id (defaulting the name to the raw id),
tier 2 lookup-only by product-group containment, tier 3 the 'Unknown'
fallback (`return category or get_or_create(session, AmazonCategory,
name='Unknown')`). -/
def get_or_create_category (productcategory_id product_group : Option String)
    (st : List AmazonCategory) : AmazonCategory × List AmazonCategory :=
  let step : Option AmazonCategory × List AmazonCategory :=
    match productcategory_id with
    | some p =>
      if p == "" then groupLookup product_group st
      else
        let r := get_or_create (fun c => c.product_category_id == some p)
          ⟨some p, none, []⟩ st
        (some { r.1 with name := pyOrName r.1.name p },
          updateFirst (fun c => c.product_category_id == some p)
            (fun c => { c with name := pyOrName c.name p }) r.2)
    | none => groupLookup product_group st
  match step.1 with
  | some category => (category, step.2)
  | none =>
    get_or_create (fun c => c.name == some "Unknown") ⟨none, some "Unknown", []⟩ step.2

/-- The tier-3 fallback always hands back a record named 'Unknown'. -/
theorem unknown_category_name (st : List AmazonCategory) :
    (get_or_create (fun c => c.name == some "Unknown")
      (⟨none, some "Unknown", []⟩ : AmazonCategory) st).1.name = some "Unknown" := by
  cases hf : st.find? (fun c => c.name == some "Unknown") with
  | some u =>
    have hu := List.find?_some hf
    rw [get_or_create, hf]
    exact beq_iff_eq.mp hu
  | none =>
    rw [get_or_create, hf]

theorem get_or_create_category_group_eq (g : String) (st : List AmazonCategory)
    (hg : (g == "") = false) :
    get_or_create_category none (some g) st =
      (match st.find? (fun c => c.product_groups.contains g) with
       | some category => (category, st)
       | none => get_or_create (fun c => c.name == some "Unknown")
          ⟨none, some "Unknown", []⟩ st) := by
  rw [get_or_create_category]
  show (match (groupLookup (some g) st).1 with
    | some category => (category, (groupLookup (some g) st).2)
    | none => get_or_create (fun c => c.name == some "Unknown")
        ⟨none, some "Unknown", []⟩ (groupLookup (some g) st).2) = _
  rw [groupLookup]
  rw [if_neg (by simp [hg])]

theorem get_or_create_category_pid_eq (p : String) (st : List AmazonCategory)
    (hp : (p == "") = false) :
    get_or_create_category (some p) none st =
      ({ (get_or_create (fun c => c.product_category_id == some p)
            ⟨some p, none, []⟩ st).1 with
          name := pyOrName (get_or_create (fun c => c.product_category_id == some p)
            ⟨some p, none, []⟩ st).1.name p },
        updateFirst (fun c => c.product_category_id == some p)
          (fun c => { c with name := pyOrName c.name p })
          (get_or_create (fun c => c.product_category_id == some p)
            ⟨some p, none, []⟩ st).2) := by
  rw [get_or_create_category]
  show (match (if p == "" then groupLookup none st else _).1 with
    | some category => (category, _)
    | none => _) = _
  rw [if_neg (by simp [hp])]

/-- C6: category resolution never returns null: with no inputs it yields the
'Unknown' category; with only a product group matching no existing category it
yields 'Unknown' and creates at most the 'Unknown' row, never a group-matched
category; with a category id it yields a category keyed by that id whose name
defaults to the raw id string when previously unset. -/
theorem C6_category_resolution_fallback (st : List AmazonCategory) :
    (get_or_create_category none none st).1.name = some "Unknown" ∧
    (∀ g, g ≠ "" → (∀ c ∈ st, c.product_groups.contains g = false) →
      ((get_or_create_category none (some g) st).1.name = some "Unknown" ∧
       ∀ c ∈ (get_or_create_category none (some g) st).2,
         c ∈ st ∨ c = ⟨none, some "Unknown", []⟩)) ∧
    (∀ p, p ≠ "" →
      ((get_or_create_category (some p) none st).1.product_category_id = some p ∧
       (∀ c, st.find? (fun c => c.product_category_id == some p) = some c →
          c.name = none →
          (get_or_create_category (some p) none st).1.name = some p) ∧
       (st.find? (fun c => c.product_category_id == some p) = none →
          (get_or_create_category (some p) none st).1.name = some p))) := by
  refine ⟨?_, ?_, ?_⟩
  · rw [get_or_create_category]
    exact unknown_category_name st
  · intro g hg hnom
    have hgb : (g == "") = false := by simp [hg]
    have hfind : st.find? (fun c => c.product_groups.contains g) = none := by
      rw [List.find?_eq_none]
      intro c hc
      simp only [hnom c hc]
      exact Bool.false_ne_true
    have hr : get_or_create_category none (some g) st =
        get_or_create (fun c => c.name == some "Unknown")
          ⟨none, some "Unknown", []⟩ st := by
      rw [get_or_create_category_group_eq g st hgb, hfind]
    constructor
    · rw [hr]
      exact unknown_category_name st
    · intro c hc
      rw [hr, get_or_create] at hc
      cases hf : st.find? (fun c => c.name == some "Unknown") with
      | some u => rw [hf] at hc; exact Or.inl hc
      | none =>
        rw [hf] at hc
        rcases List.mem_append.mp hc with h | h
        · exact Or.inl h
        · exact Or.inr (List.mem_singleton.mp h)
  · intro p hp
    have hpb : (p == "") = false := by simp [hp]
    cases hf : st.find? (fun c => c.product_category_id == some p) with
    | some c0 =>
      have hg1 : get_or_create (fun c => c.product_category_id == some p)
          (⟨some p, none, []⟩ : AmazonCategory) st = (c0, st) := by
        rw [get_or_create, hf]
      have hr : get_or_create_category (some p) none st =
          ({ c0 with name := pyOrName c0.name p },
            updateFirst (fun c => c.product_category_id == some p)
              (fun c => { c with name := pyOrName c.name p }) st) := by
        rw [get_or_create_category_pid_eq p st hpb, hg1]
      have hc0 : c0.product_category_id = some p := by
        have h := List.find?_some hf
        simpa using h
      refine ⟨by rw [hr]; exact hc0, ?_, ?_⟩
      · intro c hcf hcn
        have hcc : c = c0 := (Option.some_inj.mp hcf).symm
        rw [hr]
        show pyOrName c0.name p = some p
        rw [← hcc, hcn]
        rfl
      · intro hnone
        exact absurd hnone (by simp)
    | none =>
      have hg1 : get_or_create (fun c => c.product_category_id == some p)
          (⟨some p, none, []⟩ : AmazonCategory) st =
          (⟨some p, none, []⟩, st ++ [⟨some p, none, []⟩]) := by
        rw [get_or_create, hf]
      have hr : get_or_create_category (some p) none st =
          ((⟨some p, some p, []⟩ : AmazonCategory),
            updateFirst (fun c => c.product_category_id == some p)
              (fun c => { c with name := pyOrName c.name p })
              (st ++ [⟨some p, none, []⟩])) := by
        rw [get_or_create_category_pid_eq p st hpb, hg1]
        rfl
      refine ⟨by rw [hr], ?_, fun _ => by rw [hr]⟩
      intro c hcf
      exact absurd hcf (by simp)

/-- Witness for C6: resolving id "123" against the empty store keys the result
by "123" and defaults its name to "123". -/
theorem C6_witness :
    ("123" : String) ≠ "" ∧
    (get_or_create_category (some "123") none []).1.product_category_id = some "123" ∧
    (([] : List AmazonCategory).find?
        (fun c => c.product_category_id == some "123") = none →
      (get_or_create_category (some "123") none []).1.name = some "123") := by
  have h := (C6_category_resolution_fallback []).2.2 "123" (by decide)
  exact ⟨by decide, h.1, h.2.2⟩

/-! ## `WatchScheduler` -/

/-- The `params` mapping of an `Operation`.  `rep` models the `'repeat'` key
(`param_string.contains('repeat')` is modelled as presence of the key, i.e.
`rep.isSome`); `log` models the `'log'` key. -/
structure OpParams where
  log : Bool
  rep : Option String
deriving DecidableEq, Repr

/-- An `Operation` row: kind tag, listing, priority, params and schedule. -/
structure Operation where
  listing_id : Nat
  operation : String
  priority : Nat
  params : OpParams
  scheduled : Int
deriving DecidableEq, Repr

/-- The `get_watch` query predicate: this listing's `'UpdateAmazonListing'`
operation whose `param_string` contains `'repeat'`. -/
def watchPred (listing_id : Nat) (o : Operation) : Bool :=
  o.listing_id == listing_id && o.operation == "UpdateAmazonListing" &&
    o.params.rep.isSome

/-- The `Operation.UpdateAmazonListing(listing_id=…, priority=…)` factory: the
kind tag is fixed, params and schedule start empty. -/
def Operation.UpdateAmazonListing (listing_id priority : Nat) : Operation :=
  ⟨listing_id, "UpdateAmazonListing", priority, ⟨false, none⟩, 0⟩

/-- `get_watch(session, listing_id)`. -/
def get_watch (ops : List Operation) (listing_id : Nat) : Option Operation :=
  ops.find? (watchPred listing_id)

/-- `set_watch(session, listing_id, time)`: delete the watch when `time` is
`None`; otherwise get-or-build the watch (priority 5 at creation), overwrite
its params with `{'log': True, 'repeat': time}` and reset `scheduled` to the
store-side `now`. -/
def set_watch (now : Int) (listing_id : Nat) (time : Option String)
    (ops : List Operation) : List Operation :=
  match time with
  | none =>
    match get_watch ops listing_id with
    | some _ => List.eraseP (watchPred listing_id) ops
    | none => ops
  | some t =>
    match get_watch ops listing_id with
    | some _ =>
      updateFirst (watchPred listing_id)
        (fun o => { o with params := ⟨true, some t⟩, scheduled := now }) ops
    | none =>
      ops ++ [{ Operation.UpdateAmazonListing listing_id 5 with
        params := ⟨true, some t⟩, scheduled := now }]

theorem set_watch_some_of_none (now : Int) (listing_id : Nat) (t : String)
    (ops : List Operation) (hw : get_watch ops listing_id = none) :
    set_watch now listing_id (some t) ops =
      ops ++ [{ Operation.UpdateAmazonListing listing_id 5 with
        params := ⟨true, some t⟩, scheduled := now }] := by
  rw [set_watch]
  show (match get_watch ops listing_id with
    | some _ => updateFirst (watchPred listing_id)
        (fun o => { o with params := ⟨true, some t⟩, scheduled := now }) ops
    | none => ops ++ [{ Operation.UpdateAmazonListing listing_id 5 with
        params := ⟨true, some t⟩, scheduled := now }]) = _
  rw [hw]

theorem set_watch_some_of_some (now : Int) (listing_id : Nat) (t : String)
    (ops : List Operation) (w : Operation)
    (hw : get_watch ops listing_id = some w) :
    set_watch now listing_id (some t) ops =
      updateFirst (watchPred listing_id)
        (fun o => { o with params := ⟨true, some t⟩, scheduled := now }) ops := by
  rw [set_watch]
  show (match get_watch ops listing_id with
    | some _ => updateFirst (watchPred listing_id)
        (fun o => { o with params := ⟨true, some t⟩, scheduled := now }) ops
    | none => ops ++ [{ Operation.UpdateAmazonListing listing_id 5 with
        params := ⟨true, some t⟩, scheduled := now }]) = _
  rw [hw]

theorem set_watch_none_of_some (now : Int) (listing_id : Nat)
    (ops : List Operation) (w : Operation)
    (hw : get_watch ops listing_id = some w) :
    set_watch now listing_id none ops = List.eraseP (watchPred listing_id) ops := by
  rw [set_watch]
  show (match get_watch ops listing_id with
    | some _ => List.eraseP (watchPred listing_id) ops
    | none => ops) = _
  rw [hw]

theorem set_watch_none_of_none (now : Int) (listing_id : Nat)
    (ops : List Operation) (hw : get_watch ops listing_id = none) :
    set_watch now listing_id none ops = ops := by
  rw [set_watch]
  show (match get_watch ops listing_id with
    | some _ => List.eraseP (watchPred listing_id) ops
    | none => ops) = _
  rw [hw]

theorem countP_updateFirst (p : α → Bool) (f : α → α) (l : List α)
    (hf : ∀ a, p a = true → p (f a) = true) :
    (updateFirst p f l).countP p = l.countP p := by
  induction l with
  | nil => rfl
  | cons x xs ih =>
    cases hx : p x with
    | true => simp [updateFirst, hx, List.countP_cons, hf x hx]
    | false => simp [updateFirst, hx, List.countP_cons, ih]

theorem countP_eraseP_of_find? (p : α → Bool) (l : List α) (a : α)
    (h : l.find? p = some a) : (l.eraseP p).countP p = l.countP p - 1 := by
  induction l with
  | nil => simp at h
  | cons x xs ih =>
    cases hx : p x with
    | true =>
      rw [List.eraseP_cons_of_pos hx, List.countP_cons_of_pos _ _ hx]
      omega
    | false =>
      rw [List.find?_cons_of_neg _ (by simp [hx])] at h
      rw [List.eraseP_cons_of_neg (by simp [hx]), List.countP_cons_of_neg _ _ (by simp [hx]),
        List.countP_cons_of_neg _ _ (by simp [hx]), ih h]

theorem countP_eq_zero_of_find?_eq_none (p : α → Bool) (l : List α)
    (h : l.find? p = none) : l.countP p = 0 :=
  List.countP_eq_zero.mpr (List.find?_eq_none.mp h)

/-- Overwriting params with `{'log': True, 'repeat': t}` keeps an operation a
watch for the same listing. -/
theorem watchPred_update (listing_id : Nat) (n : Int) (t : String) (a : Operation)
    (ha : watchPred listing_id a = true) :
    watchPred listing_id
      { a with params := ⟨true, some t⟩, scheduled := n } = true := by
  simp only [watchPred, Bool.and_eq_true] at ha ⊢
  exact ⟨ha.1, rfl⟩

/-- C7: re-arming a watch twice leaves exactly one watch operation for the
listing (given the at-most-one-watch invariant), with params overwritten to
`{'log': True, 'repeat': "1d"}`, `scheduled` reset by the second call, priority
5 when the watch was created; `setWatch(id, None)` then removes it, and is a
no-op when no watch exists. -/
theorem C7_set_watch_rearm (ops : List Operation) (listing_id : Nat)
    (n1 n2 n3 : Int) (h : ops.countP (watchPred listing_id) ≤ 1) :
    (set_watch n2 listing_id (some "1d")
        (set_watch n1 listing_id (some "1d") ops)).countP (watchPred listing_id) = 1 ∧
    (∀ w, get_watch (set_watch n2 listing_id (some "1d")
        (set_watch n1 listing_id (some "1d") ops)) listing_id = some w →
      w.params = ⟨true, some "1d"⟩ ∧ w.scheduled = n2 ∧
      (get_watch ops listing_id = none → w.priority = 5)) ∧
    (∃ w, get_watch (set_watch n2 listing_id (some "1d")
        (set_watch n1 listing_id (some "1d") ops)) listing_id = some w) ∧
    (set_watch n3 listing_id none (set_watch n2 listing_id (some "1d")
        (set_watch n1 listing_id (some "1d") ops))).countP (watchPred listing_id) = 0 ∧
    (get_watch ops listing_id = none → set_watch n3 listing_id none ops = ops) := by
  cases hw : get_watch ops listing_id with
  | none =>
    have hw' : ops.find? (watchPred listing_id) = none := hw
    have hnd : ops.countP (watchPred listing_id) = 0 :=
      countP_eq_zero_of_find?_eq_none _ _ hw'
    have hp1 : watchPred listing_id
        ⟨listing_id, "UpdateAmazonListing", 5, ⟨true, some "1d"⟩, n1⟩ = true := by
      simp [watchPred]
    have hp2 : watchPred listing_id
        ⟨listing_id, "UpdateAmazonListing", 5, ⟨true, some "1d"⟩, n2⟩ = true := by
      simp [watchPred]
    have hs1 : set_watch n1 listing_id (some "1d") ops =
        ops ++ [⟨listing_id, "UpdateAmazonListing", 5, ⟨true, some "1d"⟩, n1⟩] :=
      set_watch_some_of_none n1 listing_id "1d" ops hw
    have hg1 : get_watch (set_watch n1 listing_id (some "1d") ops) listing_id =
        some ⟨listing_id, "UpdateAmazonListing", 5, ⟨true, some "1d"⟩, n1⟩ := by
      rw [hs1, get_watch, List.find?_append, hw']
      simp [hp1]
    have hs2 : set_watch n2 listing_id (some "1d")
        (set_watch n1 listing_id (some "1d") ops) =
        ops ++ [⟨listing_id, "UpdateAmazonListing", 5, ⟨true, some "1d"⟩, n2⟩] := by
      rw [set_watch_some_of_some n2 listing_id "1d" _ _ hg1, hs1,
        updateFirst_append_of_find?_eq_none _ _ _ _ hw']
      simp [updateFirst, hp1]
    have hg2 : get_watch (set_watch n2 listing_id (some "1d")
        (set_watch n1 listing_id (some "1d") ops)) listing_id =
        some ⟨listing_id, "UpdateAmazonListing", 5, ⟨true, some "1d"⟩, n2⟩ := by
      rw [hs2, get_watch, List.find?_append, hw']
      simp [hp2]
    have hcnt2 : (set_watch n2 listing_id (some "1d")
        (set_watch n1 listing_id (some "1d") ops)).countP (watchPred listing_id) = 1 := by
      rw [hs2, List.countP_append, hnd]
      simp [hp2]
    refine ⟨hcnt2, ?_, ⟨_, hg2⟩, ?_, fun _ => set_watch_none_of_none n3 listing_id ops hw⟩
    · intro w hwq
      rw [hg2] at hwq
      have hww := (Option.some_inj.mp hwq).symm
      subst hww
      exact ⟨rfl, rfl, fun _ => rfl⟩
    · rw [set_watch_none_of_some n3 listing_id _ _ hg2,
        countP_eraseP_of_find? _ _ _ hg2, hcnt2]
  | some w0 =>
    have hw' : ops.find? (watchPred listing_id) = some w0 := hw
    have hpos : 0 < ops.countP (watchPred listing_id) :=
      List.countP_pos_iff.mpr ⟨w0, List.mem_of_find?_eq_some hw', List.find?_some hw'⟩
    have hcnt : ops.countP (watchPred listing_id) = 1 := le_antisymm h hpos
    have hs1 : set_watch n1 listing_id (some "1d") ops =
        updateFirst (watchPred listing_id)
          (fun o => { o with params := ⟨true, some "1d"⟩, scheduled := n1 }) ops :=
      set_watch_some_of_some n1 listing_id "1d" ops w0 hw
    have hg1 : get_watch (set_watch n1 listing_id (some "1d") ops) listing_id =
        some { w0 with params := ⟨true, some "1d"⟩, scheduled := n1 } := by
      rw [hs1, get_watch, find?_updateFirst _ _ _ (fun a ha => watchPred_update _ n1 _ a ha),
        hw']
      rfl
    have hc1 : (set_watch n1 listing_id (some "1d") ops).countP (watchPred listing_id) = 1 := by
      rw [hs1, countP_updateFirst _ _ _ (fun a ha => watchPred_update _ n1 _ a ha), hcnt]
    have hs2 : set_watch n2 listing_id (some "1d")
        (set_watch n1 listing_id (some "1d") ops) =
        updateFirst (watchPred listing_id)
          (fun o => { o with params := ⟨true, some "1d"⟩, scheduled := n2 })
          (set_watch n1 listing_id (some "1d") ops) :=
      set_watch_some_of_some n2 listing_id "1d" _ _ hg1
    have hg2 : get_watch (set_watch n2 listing_id (some "1d")
        (set_watch n1 listing_id (some "1d") ops)) listing_id =
        some { w0 with params := ⟨true, some "1d"⟩, scheduled := n2 } := by
      rw [hs2, get_watch, find?_updateFirst _ _ _ (fun a ha => watchPred_update _ n2 _ a ha)]
      rw [hs1, find?_updateFirst _ _ _ (fun a ha => watchPred_update _ n1 _ a ha), hw']
      rfl
    have hcnt2 : (set_watch n2 listing_id (some "1d")
        (set_watch n1 listing_id (some "1d") ops)).countP (watchPred listing_id) = 1 := by
      rw [hs2, countP_updateFirst _ _ _ (fun a ha => watchPred_update _ n2 _ a ha), hc1]
    refine ⟨hcnt2, ?_, ⟨_, hg2⟩, ?_, ?_⟩
    · intro w hwq
      rw [hg2] at hwq
      have hww := (Option.some_inj.mp hwq).symm
      subst hww
      refine ⟨rfl, rfl, fun hcontra => ?_⟩
      exact absurd hcontra (by simp)
    · rw [set_watch_none_of_some n3 listing_id _ _ hg2,
        countP_eraseP_of_find? _ _ _ hg2, hcnt2]
    · intro hcontra
      exact absurd hcontra (by simp)

/-- Witness for C7 on the empty operation store. -/
theorem C7_witness :
    (([] : List Operation).countP (watchPred 9) ≤ 1) ∧
    ((set_watch 20 9 (some "1d")
        (set_watch 10 9 (some "1d") [])).countP (watchPred 9) = 1 ∧
    (∀ w, get_watch (set_watch 20 9 (some "1d")
        (set_watch 10 9 (some "1d") [])) 9 = some w →
      w.params = ⟨true, some "1d"⟩ ∧ w.scheduled = 20 ∧
      (get_watch ([] : List Operation) 9 = none → w.priority = 5)) ∧
    (∃ w, get_watch (set_watch 20 9 (some "1d")
        (set_watch 10 9 (some "1d") [])) 9 = some w) ∧
    (set_watch 30 9 none (set_watch 20 9 (some "1d")
        (set_watch 10 9 (some "1d") []))).countP (watchPred 9) = 0 ∧
    (get_watch ([] : List Operation) 9 = none → set_watch 30 9 none [] = [])) :=
  ⟨by decide, C7_set_watch_rearm [] 9 10 20 30 (by decide)⟩

/-! ## `ListManager` -/

/-- A `List` row: unique name and the derived `is_amazon` flag. -/
structure ListRec where
  id : Nat
  name : String
  is_amazon : Bool
deriving DecidableEq, Repr

/-- A `ListMembership` row: the (list, listing) join pair. -/
structure ListMembership where
  list_id : Nat
  listing_id : Nat
deriving DecidableEq, Repr

/-- A `Listing` row, reduced to its id and whether it is an `AmazonListing`
(`isinstance(first, AmazonListing)`). -/
structure Listing where
  id : Nat
  isAmazonListing : Bool
deriving DecidableEq, Repr

/-- The slice of the store the list manager touches.  `nextId` is the store's
id allocator for newly staged `List` rows. -/
structure ListStore where
  lists : List ListRec
  memberships : List ListMembership
  listings : List Listing
  nextId : Nat
deriving DecidableEq, Repr

/-- `get_or_create(session, List, name=list_name)`; a created row receives the
next store id. -/
def get_or_create_list (name : String) (st : ListStore) : ListRec × ListStore :=
  match st.lists.find? (fun l => l.name == name) with
  | some l => (l, st)
  | none =>
    (⟨st.nextId, name, false⟩,
      { st with lists := st.lists ++ [⟨st.nextId, name, false⟩],
                nextId := st.nextId + 1 })

/-- `get_or_create(session, ListMembership, list=…, listing_id=…)` on the
membership table alone. -/
def addMembership (list_id listing_id : Nat) (ms : List ListMembership) :
    List ListMembership :=
  match ms.find? (fun m => m.list_id == list_id && m.listing_id == listing_id) with
  | some _ => ms
  | none => ms ++ [⟨list_id, listing_id⟩]

/-- The store effect of the membership `get_or_create`. -/
def get_or_create_membership (list_id listing_id : Nat) (st : ListStore) :
    ListStore :=
  { st with memberships := addMembership list_id listing_id st.memberships }

/-- `add_ids_to_list`: get-or-create the list, get-or-create one membership per
id, then inspect `listing_ids[0]` — an empty id list raises `IndexError` there,
after the list row is already fetched or staged — and derive `is_amazon` from
that first listing (`isinstance(None, AmazonListing)` is `False`). -/
def add_ids_to_list (listing_ids : List Nat) (list_name : String)
    (st : ListStore) : ListStore × Except String Unit :=
  let r := get_or_create_list list_name st
  let st1 := listing_ids.foldl (fun s i => get_or_create_membership r.1.id i s) r.2
  match listing_ids.head? with
  | none => (st1, .error "IndexError")
  | some i0 =>
    let first := st1.listings.find? (fun l => l.id == i0)
    let is_amz := match first with
      | some l => l.isAmazonListing
      | none => false
    let lists1 := updateFirst (fun l => l.name == list_name)
      (fun l => { l with is_amazon := is_amz }) st1.lists
    ({ st1 with lists := lists1 }, .ok ())

/-- `remove_ids_from_list`: no-op when the list does not exist or the id set is
empty; otherwise delete each matching membership that exists. -/
def remove_ids_from_list (listing_ids : List Nat) (list_name : String)
    (st : ListStore) : ListStore :=
  match st.lists.find? (fun l => l.name == list_name) with
  | none => st
  | some rm_list =>
    if listing_ids.isEmpty then st
    else
      listing_ids.foldl (fun s i =>
        let ms := List.eraseP
          (fun m => m.list_id == rm_list.id && m.listing_id == i) s.memberships
        { s with memberships := ms }) st

theorem mem_updateFirst {p : α → Bool} {f : α → α} {l : List α} {x : α}
    (hx : x ∈ updateFirst p f l) : x ∈ l ∨ ∃ y, y ∈ l ∧ x = f y := by
  induction l with
  | nil => simp [updateFirst] at hx
  | cons z zs ih =>
    rw [updateFirst] at hx
    cases hz : p z with
    | true =>
      rw [hz] at hx
      simp only [if_true, ite_true, List.mem_cons] at hx
      rcases hx with hx | hx
      · exact Or.inr ⟨z, List.mem_cons_self z zs, hx⟩
      · exact Or.inl (List.mem_cons_of_mem z hx)
    | false =>
      rw [hz] at hx
      simp only [Bool.false_eq_true, if_false, ite_false, List.mem_cons] at hx
      rcases hx with hx | hx
      · exact Or.inl (hx ▸ List.mem_cons_self z zs)
      · rcases ih hx with h | ⟨y, hy, hxy⟩
        · exact Or.inl (List.mem_cons_of_mem z h)
        · exact Or.inr ⟨y, List.mem_cons_of_mem z hy, hxy⟩

/-- Adding memberships for `[a, b]` to a list with no memberships and then
erasing them in the same order restores the original membership table. -/
theorem memberships_roundtrip (i a b : Nat) (M : List ListMembership)
    (hno : ∀ m ∈ M, m.list_id ≠ i) :
    ((addMembership i b (addMembership i a M)).eraseP
        (fun m => m.list_id == i && m.listing_id == a)).eraseP
        (fun m => m.list_id == i && m.listing_id == b) = M := by
  have hnopred : ∀ (c : Nat) (m : ListMembership), m ∈ M →
      ¬((m.list_id == i && m.listing_id == c) = true) := by
    intro c m hm
    simp [hno m hm]
  have hA : addMembership i a M = M ++ [⟨i, a⟩] := by
    rw [addMembership, List.find?_eq_none.mpr (hnopred a)]
  by_cases hba : b = a
  · subst hba
    have hB : addMembership i b (M ++ [⟨i, b⟩]) = M ++ [⟨i, b⟩] := by
      rw [addMembership, List.find?_append, List.find?_eq_none.mpr (hnopred b)]
      simp
    rw [hA, hB, List.eraseP_append_right _ (hnopred b)]
    rw [List.eraseP_cons_of_pos (by simp), List.append_nil,
      List.eraseP_of_forall_not (hnopred b)]
  · have hB : addMembership i b (M ++ [⟨i, a⟩]) =
        (M ++ [⟨i, a⟩]) ++ [⟨i, b⟩] := by
      rw [addMembership, List.find?_append, List.find?_eq_none.mpr (hnopred b)]
      have hab : a ≠ b := fun h => hba h.symm
      simp [hab]
    rw [hA, hB, List.append_assoc, List.eraseP_append_right _ (hnopred a)]
    rw [show ([⟨i, a⟩] ++ [⟨i, b⟩] : List ListMembership).eraseP
        (fun m => m.list_id == i && m.listing_id == a) = [⟨i, b⟩] from by
      rw [List.singleton_append, List.eraseP_cons_of_pos (by simp)]]
    rw [List.eraseP_append_right _ (hnopred b),
      List.eraseP_cons_of_pos (by simp), List.append_nil]

/-- Core of the C5 round trip, shared by the found-list and created-list
cases: after `add_ids_to_list [a, b]` then `remove_ids_from_list [a, b]`, no
membership points at any list named `L`. -/
theorem roundtrip_aux (a b : Nat) (L : String) (st : ListStore) (lst : ListRec)
    (st0 : ListStore)
    (hg : get_or_create_list L st = (lst, st0))
    (hmem0 : st0.memberships = st.memberships)
    (hno : ∀ m ∈ st.memberships, m.list_id ≠ lst.id)
    (hfirst : st0.lists.find? (fun l => l.name == L) = some lst)
    (hLall : ∀ l ∈ st0.lists, l.name = L → ∀ m ∈ st.memberships, m.list_id ≠ l.id) :
    ∀ m ∈ (remove_ids_from_list [a, b] L (add_ids_to_list [a, b] L st).1).memberships,
      ∀ l ∈ (remove_ids_from_list [a, b] L (add_ids_to_list [a, b] L st).1).lists,
        l.name = L → m.list_id ≠ l.id := by
  have hadd : ∃ v : Bool, (add_ids_to_list [a, b] L st).1 =
      { lists := updateFirst (fun l => l.name == L)
          (fun l => { l with is_amazon := v }) st0.lists,
        memberships := addMembership lst.id b (addMembership lst.id a st0.memberships),
        listings := st0.listings,
        nextId := st0.nextId } :=
    ⟨_, by rw [add_ids_to_list, hg]; rfl⟩
  obtain ⟨v, hadd⟩ := hadd
  have hfind2 : (add_ids_to_list [a, b] L st).1.lists.find?
      (fun l => l.name == L) = some { lst with is_amazon := v } := by
    rw [hadd]
    show (updateFirst (fun l => l.name == L)
      (fun l => { l with is_amazon := v }) st0.lists).find? (fun l => l.name == L) = _
    rw [find?_updateFirst (fun l => l.name == L)
      (fun l => { l with is_amazon := v }) st0.lists (fun x hx => hx), hfirst]
    rfl
  have hrem : remove_ids_from_list [a, b] L (add_ids_to_list [a, b] L st).1 =
      { lists := updateFirst (fun l => l.name == L)
          (fun l => { l with is_amazon := v }) st0.lists,
        memberships := ((addMembership lst.id b
            (addMembership lst.id a st0.memberships)).eraseP
            (fun m => m.list_id == lst.id && m.listing_id == a)).eraseP
            (fun m => m.list_id == lst.id && m.listing_id == b),
        listings := st0.listings,
        nextId := st0.nextId } := by
    rw [remove_ids_from_list, hfind2, hadd]
    rfl
  have hno0 : ∀ m ∈ st0.memberships, m.list_id ≠ lst.id := by
    rw [hmem0]; exact hno
  intro m hm l hl hlname
  rw [hrem] at hm hl
  have hm' : m ∈ st.memberships := by
    have hm2 : m ∈ ((addMembership lst.id b
        (addMembership lst.id a st0.memberships)).eraseP
        (fun x => x.list_id == lst.id && x.listing_id == a)).eraseP
        (fun x => x.list_id == lst.id && x.listing_id == b) := hm
    rw [memberships_roundtrip lst.id a b st0.memberships hno0, hmem0] at hm2
    exact hm2
  have hl' : ∃ y, y ∈ st0.lists ∧ l.id = y.id ∧ l.name = y.name := by
    have hl2 : l ∈ updateFirst (fun l => l.name == L)
        (fun l => { l with is_amazon := v }) st0.lists := hl
    rcases mem_updateFirst hl2 with h | ⟨y, hy, hly⟩
    · exact ⟨l, h, rfl, rfl⟩
    · exact ⟨y, hy, by rw [hly], by rw [hly]⟩
  obtain ⟨y, hy, hid, hname⟩ := hl'
  rw [hid]
  exact hLall y hy (by rw [← hname, hlname]) m hm'

/-- C5: `addToList([a,b], L)` followed by `removeFromList([a,b], L)` leaves
list `L` with zero memberships (given the store invariants that ids are
allocated below `nextId` and `L` starts with no memberships); removing from a
non-existent list, or with an empty id set, is a no-op that raises nothing. -/
theorem C5_membership_roundtrip (a b : Nat) (L : String) (st : ListStore)
    (hFresh : ∀ m ∈ st.memberships, m.list_id < st.nextId)
    (hL : ∀ l ∈ st.lists, l.name = L → ∀ m ∈ st.memberships, m.list_id ≠ l.id) :
    (∀ m ∈ (remove_ids_from_list [a, b] L
        (add_ids_to_list [a, b] L st).1).memberships,
      ∀ l ∈ (remove_ids_from_list [a, b] L
        (add_ids_to_list [a, b] L st).1).lists,
        l.name = L → m.list_id ≠ l.id) ∧
    (∀ (st' : ListStore) (ids : List Nat),
      st'.lists.find? (fun l => l.name == L) = none →
      remove_ids_from_list ids L st' = st') ∧
    (∀ (st' : ListStore) (nm : String), remove_ids_from_list [] nm st' = st') := by
  refine ⟨?_, ?_, ?_⟩
  · cases hf : st.lists.find? (fun l => l.name == L) with
    | some l0 =>
      have hg : get_or_create_list L st = (l0, st) := by
        rw [get_or_create_list, hf]
      have hl0name : l0.name = L := by
        have hb := List.find?_some hf
        exact beq_iff_eq.mp hb
      exact roundtrip_aux a b L st l0 st hg rfl
        (hL l0 (List.mem_of_find?_eq_some hf) hl0name)
        (by rw [hf])
        hL
    | none =>
      have hg : get_or_create_list L st =
          (⟨st.nextId, L, false⟩,
            { st with lists := st.lists ++ [⟨st.nextId, L, false⟩],
                      nextId := st.nextId + 1 }) := by
        rw [get_or_create_list, hf]
      refine roundtrip_aux a b L st ⟨st.nextId, L, false⟩ _ hg rfl
        (fun m hm => Nat.ne_of_lt (hFresh m hm)) ?_ ?_
      · show (st.lists ++ [(⟨st.nextId, L, false⟩ : ListRec)]).find?
          (fun l => l.name == L) = _
        rw [List.find?_append, hf]
        simp
      · intro l hl hlname m hm
        rcases List.mem_append.mp hl with h | h
        · exact hL l h hlname m hm
        · rw [List.mem_singleton.mp h]
          exact Nat.ne_of_lt (hFresh m hm)
  · intro st' ids h
    rw [remove_ids_from_list, h]
  · intro st' nm
    cases hf : st'.lists.find? (fun l => l.name == nm) with
    | none => rw [remove_ids_from_list, hf]
    | some r =>
      rw [remove_ids_from_list, hf]
      rfl

/-- Witness for C5 on the empty store. -/
theorem C5_witness :
    (∀ m ∈ (⟨[], [], [], 0⟩ : ListStore).memberships, m.list_id < 0) ∧
    (∀ l ∈ (⟨[], [], [], 0⟩ : ListStore).lists, l.name = "L" →
      ∀ m ∈ (⟨[], [], [], 0⟩ : ListStore).memberships, m.list_id ≠ l.id) ∧
    ((∀ m ∈ (remove_ids_from_list [1, 2] "L"
        (add_ids_to_list [1, 2] "L" ⟨[], [], [], 0⟩).1).memberships,
      ∀ l ∈ (remove_ids_from_list [1, 2] "L"
        (add_ids_to_list [1, 2] "L" ⟨[], [], [], 0⟩).1).lists,
        l.name = "L" → m.list_id ≠ l.id) ∧
    (∀ (st' : ListStore) (ids : List Nat),
      st'.lists.find? (fun l => l.name == "L") = none →
      remove_ids_from_list ids "L" st' = st') ∧
    (∀ (st' : ListStore) (nm : String), remove_ids_from_list [] nm st' = st')) :=
  ⟨by decide, by decide,
    C5_membership_roundtrip 1 2 "L" ⟨[], [], [], 0⟩ (by decide) (by decide)⟩

/-- C10: `add_ids_to_list` with an empty id list raises `IndexError` when
indexing `listing_ids[0]`, after the `List` row has been fetched or staged —
so it is not a no-op, unlike `remove_ids_from_list` with an empty id set. -/
theorem C10_add_empty_ids_raises (L : String) (st : ListStore) :
    (add_ids_to_list [] L st).2 = .error "IndexError" ∧
    (∃ l ∈ (add_ids_to_list [] L st).1.lists, l.name = L) ∧
    (st.lists.find? (fun l => l.name == L) = none →
      (add_ids_to_list [] L st).1.lists = st.lists ++ [⟨st.nextId, L, false⟩]) ∧
    remove_ids_from_list [] L st = st := by
  cases hf : st.lists.find? (fun l => l.name == L) with
  | some l0 =>
    have hg : get_or_create_list L st = (l0, st) := by
      rw [get_or_create_list, hf]
    have ha : add_ids_to_list [] L st = (st, .error "IndexError") := by
      rw [add_ids_to_list, hg]
      rfl
    refine ⟨by rw [ha], ⟨l0, ?_, ?_⟩, ?_, ?_⟩
    · rw [ha]
      exact List.mem_of_find?_eq_some hf
    · have hb := List.find?_some hf
      exact beq_iff_eq.mp hb
    · intro h
      exact absurd h (by simp)
    · rw [remove_ids_from_list, hf]
      rfl
  | none =>
    have hg : get_or_create_list L st =
        (⟨st.nextId, L, false⟩,
          { st with lists := st.lists ++ [⟨st.nextId, L, false⟩],
                    nextId := st.nextId + 1 }) := by
      rw [get_or_create_list, hf]
    have ha : add_ids_to_list [] L st =
        ({ st with lists := st.lists ++ [⟨st.nextId, L, false⟩],
                   nextId := st.nextId + 1 }, .error "IndexError") := by
      rw [add_ids_to_list, hg]
      rfl
    refine ⟨by rw [ha], ⟨⟨st.nextId, L, false⟩, ?_, rfl⟩, fun _ => by rw [ha], ?_⟩
    · rw [ha]
      show ⟨st.nextId, L, false⟩ ∈ st.lists ++ [(⟨st.nextId, L, false⟩ : ListRec)]
      exact List.mem_append.mpr (Or.inr (List.mem_singleton.mpr rfl))
    · rw [remove_ids_from_list, hf]

/-- Witness for C10 on the empty store. -/
theorem C10_witness :
    (⟨[], [], [], 0⟩ : ListStore).lists.find? (fun l => l.name == "L") = none ∧
    (add_ids_to_list [] "L" (⟨[], [], [], 0⟩ : ListStore)).1.lists =
      [] ++ [⟨0, "L", false⟩] :=
  ⟨by decide,
    (C10_add_empty_ids_raises "L" ⟨[], [], [], 0⟩).2.2.1 (by decide)⟩

end DBHelpers
